import Mathlib

/-!
Shallow embedding of the P2P USDT trading core (`src/main.py`, `src/models.py`,
`src/schemas.py`) and verification of its specification claims.

Modelling conventions:
* SQLAlchemy rows become Lean structures; the relational store becomes an
  explicit `DB` value threaded through each operation.
* Python `float` money fields are embedded as `ℚ`; every amount appearing in
  the claims is exactly representable and the claimed arithmetic identities
  are exact.
* `HTTPException` becomes an explicit `HTTPError` value; a handler returns
  `Except HTTPError (result × DB)`, so a failing call returns no new `DB`
  and by construction leaves the store unchanged.
* `random.choices(string.ascii_uppercase + string.digits, k=5)` becomes a
  function of an explicit draw `Fin 5 → Fin 36`; the unbounded
  generate-and-recheck loop of `create_deal` consumes an explicit finite list
  of draws and returns `none` when the list is exhausted (the Python loop
  would still be running at that point).
-/

/-- Embeds the `users` table row (`models.py`, class `User`). -/
structure User where
  id : Nat
  name : String
  telegram_username : String
  user_type : String
  verified : Bool := false
deriving Repr, DecidableEq

/-- Embeds the `listings` table row (`models.py`, class `Listing`). -/
structure Listing where
  id : Nat
  user_id : Nat
  listing_type : String
  amount : ℚ
  rate : ℚ
  payment_method : String
  contact : String
  status : String := "active"
deriving Repr, DecidableEq

/-- Embeds the `deals` table row (`models.py`, class `Deal`).
`id` is modelled as assigned by the store at insertion time. -/
structure Deal where
  id : Nat
  listing_id : Nat
  buyer_id : Nat
  seller_id : Nat
  usdt_amount : ℚ
  etb_amount : ℚ
  trade_code : String
  escrow_wallet : String
  status : String := "pending"
  commission_amount : ℚ := 0
deriving Repr, DecidableEq

/-- Embeds the `logs` table row (`models.py`, class `Log`). -/
structure LogRow where
  deal_id : Nat
  action : String
  notes : String
deriving Repr, DecidableEq

/-- The relational store: one list per table, in insertion order.
Rows are only ever appended or updated in place, matching the source
(no endpoint deletes a row). -/
structure DB where
  users : List User := []
  listings : List Listing := []
  deals : List Deal := []
  logs : List LogRow := []
deriving Repr, DecidableEq

/-- Embeds the process-wide configuration of `main.py`
(`ESCROW_WALLET`, `COMMISSION_PERCENT`, `RELEASE_SECRET`), with the
source's default values. -/
structure Config where
  escrow_wallet : String := "TXxxxxxx"
  commission_percent : ℚ := 1.5
  release_secret : String := "p2p_secure_release_key_2024"
deriving Repr, DecidableEq

/-- Embeds `fastapi.HTTPException(status_code=..., detail=...)`. -/
structure HTTPError where
  status_code : Nat
  detail : String
deriving Repr, DecidableEq

def listingNotFound : HTTPError := ⟨404, "Listing not found"⟩

def dealNotFound : HTTPError := ⟨404, "Deal not found"⟩

def notPendingError : HTTPError := ⟨400, "Deal is not in pending status"⟩

def notPaidError : HTTPError := ⟨400, "Deal payment not confirmed"⟩

def invalidSecretError : HTTPError := ⟨403, "Invalid admin secret"⟩

/-- Embeds the FastAPI/pydantic 422 response produced when a request body
fails schema validation (`schemas.py`). -/
def validationError : HTTPError := ⟨422, "Input should be greater than 0"⟩

/-- Embeds the request body `DealCreate` (`schemas.py`): `usdt_amount`,
`listing_id`, `buyer_id`. -/
structure DealCreate where
  usdt_amount : ℚ
  listing_id : Nat
  buyer_id : Nat
deriving Repr, DecidableEq

/-- Embeds the request body `AdminRelease` (`schemas.py`). -/
structure AdminRelease where
  trade_code : String
  secret : String
deriving Repr, DecidableEq

/-- The successful response body of `/admin/release-funds` (`main.py`):
trade code, net amount released, and commission retained. -/
structure ReleaseReceipt where
  trade_code : String
  amount_released : ℚ
  commission : ℚ
deriving Repr, DecidableEq

/-- Embeds `string.ascii_uppercase` (`models.py` imports `string`). -/
def ascii_uppercase : List Char := "ABCDEFGHIJKLMNOPQRSTUVWXYZ".data

/-- Embeds `string.digits`. -/
def asciiDigits : List Char := "0123456789".data

/-- The 36-symbol alphabet `string.ascii_uppercase + string.digits` used by
`Deal.generate_trade_code` (`models.py` line 66). -/
def tradeAlphabet : List Char := ascii_uppercase ++ asciiDigits

theorem tradeAlphabet_length : tradeAlphabet.length = 36 := rfl

/-- Embeds `Deal.generate_trade_code` (`models.py` lines 63-66):
`''.join(random.choices(string.ascii_uppercase + string.digits, k=5))`.
The five independent random draws of `random.choices` are made explicit as a
function `choice : Fin 5 → Fin 36` indexing into the alphabet. -/
def generate_trade_code (choice : Fin 5 → Fin 36) : String :=
  String.mk (List.ofFn fun i : Fin 5 => tradeAlphabet.get ((choice i).cast tradeAlphabet_length.symm))

/-- Embeds the trade-code normalization appearing in `get_deal`,
`confirm_payment` and `release_funds` (`main.py`):
`if trade_code.startswith("#"): trade_code = trade_code[1:]`.
Python strings are character sequences: `startswith("#")` holds exactly when
the first character is `'#'`, and `[1:]` drops the first character. -/
def stripHash (s : String) : String :=
  if s.data.head? = some '#' then String.mk s.data.tail else s

/-- Embeds `db.query(Listing).filter(Listing.id == listing_id).first()`. -/
def findListing (listings : List Listing) (lid : Nat) : Option Listing :=
  listings.find? (fun l => l.id == lid)

/-- Embeds `db.query(Deal).filter(Deal.trade_code == trade_code).first()`. -/
def findDealByCode (deals : List Deal) (code : String) : Option Deal :=
  deals.find? (fun d => d.trade_code == code)

/-- Truthiness of the lookup result, as used by the `while` condition of
`create_deal` (`main.py` line 152). -/
def codeUsed (deals : List Deal) (code : String) : Bool :=
  (findDealByCode deals code).isSome

/-- Embeds the generate-and-recheck loop of `create_deal`
(`main.py` lines 150-153):

`trade_code = Deal.generate_trade_code()`
`while db.query(Deal).filter(Deal.trade_code == trade_code).first():`
`    trade_code = Deal.generate_trade_code()`

Each loop iteration consumes one random draw; the finite list `draws`
is the prefix of the random stream actually consumed, and `none` means the
loop is still running after exhausting it. -/
def allocate_trade_code (deals : List Deal) : List (Fin 5 → Fin 36) → Option String
  | [] => none
  | r :: rest =>
    let code := generate_trade_code r
    if codeUsed deals code then allocate_trade_code deals rest else some code

/-- ORM-style in-place update of the first row matching a trade code,
as performed by `deal.status = ...; db.commit()` on the row returned by
`.first()`. -/
def updateDealByCode (deals : List Deal) (code : String) (f : Deal → Deal) : List Deal :=
  match deals with
  | [] => []
  | d :: rest =>
    if d.trade_code == code then f d :: rest
    else d :: updateDealByCode rest code f

/-- Embeds the handler body of `POST /deals` (`main.py` lines 142-183,
`create_deal`): verify the listing exists, allocate an unused trade code,
compute `etb_amount = usdt_amount * listing.rate` and
`commission = usdt_amount * (COMMISSION_PERCENT / 100)`, insert the Deal
(status defaults to "pending") and append a "Deal created" log row.
The outer `Option` is `none` only when the allocation loop has not yet
terminated on the supplied draws. -/
def create_deal (cfg : Config) (draws : List (Fin 5 → Fin 36)) (deal : DealCreate)
    (db : DB) : Option (Except HTTPError (Deal × DB)) :=
  match findListing db.listings deal.listing_id with
  | none => some (.error listingNotFound)
  | some listing =>
    match allocate_trade_code db.deals draws with
    | none => none
    | some trade_code =>
      let etb_amount := deal.usdt_amount * listing.rate
      let commission := deal.usdt_amount * (cfg.commission_percent / 100)
      let db_deal : Deal :=
        { id := db.deals.length + 1
          listing_id := deal.listing_id
          buyer_id := deal.buyer_id
          seller_id := listing.user_id
          usdt_amount := deal.usdt_amount
          etb_amount := etb_amount
          trade_code := trade_code
          escrow_wallet := cfg.escrow_wallet
          status := "pending"
          commission_amount := commission }
      let logRow : LogRow :=
        { deal_id := db_deal.id
          action := "Deal created"
          notes := "Trade code: " ++ trade_code ++ ", Amount: " ++ toString deal.usdt_amount ++ " USDT" }
      some (.ok (db_deal, { db with deals := db.deals ++ [db_deal], logs := db.logs ++ [logRow] }))

/-- Embeds the pydantic constraint `usdt_amount: float = Field(..., gt=0)`
on `DealBase` (`schemas.py` lines 44-45). -/
def dealCreate_schema_ok (deal : DealCreate) : Bool :=
  decide (0 < deal.usdt_amount)

/-- The full `POST /deals` endpoint: FastAPI validates the request body
against the pydantic schema before invoking the handler, rejecting it with a
422 validation error; the handler body `create_deal` itself performs no
amount check. -/
def create_deal_endpoint (cfg : Config) (draws : List (Fin 5 → Fin 36))
    (deal : DealCreate) (db : DB) : Option (Except HTTPError (Deal × DB)) :=
  if dealCreate_schema_ok deal then create_deal cfg draws deal db
  else some (.error validationError)

/-- Embeds the handler of `POST /confirm-payment` (`main.py` lines 203-231,
`confirm_payment`): strip a leading "#", look the Deal up by trade code
(404 if absent), reject unless its status is "pending" (400), otherwise set
the status to "paid", append a "Payment confirmed" log row and return the
trade code. -/
def confirm_payment (trade_code_input : String) (db : DB) :
    Except HTTPError (String × DB) :=
  let trade_code := stripHash trade_code_input
  match findDealByCode db.deals trade_code with
  | none => .error dealNotFound
  | some deal =>
    if deal.status ≠ "pending" then .error notPendingError
    else
      let deals' := updateDealByCode db.deals trade_code (fun d => { d with status := "paid" })
      let logRow : LogRow :=
        { deal_id := deal.id
          action := "Payment confirmed"
          notes := "Seller confirmed ETB payment received" }
      .ok (deal.trade_code, { db with deals := deals', logs := db.logs ++ [logRow] })

/-- Embeds the handler of `POST /admin/release-funds` (`main.py` lines
233-269, `release_funds`): reject a wrong secret with 403 before anything
else, strip a leading "#", look the Deal up (404 if absent), reject unless
its status is "paid" (400), otherwise set the status to "released", append a
"Funds released" log row and return the trade code, the net amount
`usdt_amount - commission_amount` and the commission. -/
def release_funds (cfg : Config) (release : AdminRelease) (db : DB) :
    Except HTTPError (ReleaseReceipt × DB) :=
  if release.secret ≠ cfg.release_secret then .error invalidSecretError
  else
    let trade_code := stripHash release.trade_code
    match findDealByCode db.deals trade_code with
    | none => .error dealNotFound
    | some deal =>
      if deal.status ≠ "paid" then .error notPaidError
      else
        let deals' := updateDealByCode db.deals trade_code (fun d => { d with status := "released" })
        let logRow : LogRow :=
          { deal_id := deal.id
            action := "Funds released"
            notes := "Admin released " ++ toString (deal.usdt_amount - deal.commission_amount) ++ " USDT to buyer" }
        .ok ({ trade_code := deal.trade_code
               amount_released := deal.usdt_amount - deal.commission_amount
               commission := deal.commission_amount },
             { db with deals := deals', logs := db.logs ++ [logRow] })

/-- Modelled from the spec: an external mutation of a Listing's rate
("remains unchanged if the Listing's rate is later modified"). The reviewed
source has no listing-update endpoint, so the mutation is modelled as a
direct store update of the listing rows; it does not touch the deals table. -/
def update_listing_rate (db : DB) (lid : Nat) (rate : ℚ) : DB :=
  { db with listings := db.listings.map (fun l => if l.id == lid then { l with rate := rate } else l) }

/-- A store mutation replacing the status of the Listing with id `lid`,
used to compare `create_deal` runs against the same Listing in different
statuses. -/
def update_listing_status (db : DB) (lid : Nat) (st : String) : DB :=
  { db with listings := db.listings.map (fun l => if l.id == lid then { l with status := st } else l) }

/-- The trade-code uniqueness invariant of the deals table
(`models.py` line 50, `trade_code = Column(..., unique=True, ...)`). -/
def uniqueCodes (deals : List Deal) : Prop :=
  deals.Pairwise (fun a b => a.trade_code ≠ b.trade_code)

/-! ### Helper lemmas -/

theorem stripHash_hash_cons (code : String) : stripHash ("#" ++ code) = code := by
  cases code with
  | mk l => rfl

theorem stripHash_no_hash (code : String) (hc : code.data.head? ≠ some '#') :
    stripHash code = code := by
  rw [stripHash, if_neg hc]

theorem findDealByCode_trade_code (deals : List Deal) (code : String) (deal : Deal)
    (h : findDealByCode deals code = some deal) : deal.trade_code = code := by
  have hp := List.find?_some h
  simpa using hp

theorem findDealByCode_updateDealByCode (deals : List Deal) (code : String) (f : Deal → Deal)
    (hf : ∀ d, (f d).trade_code = d.trade_code) :
    ∀ deal, findDealByCode deals code = some deal →
      findDealByCode (updateDealByCode deals code f) code = some (f deal) := by
  induction deals with
  | nil => intro deal h; simp [findDealByCode] at h
  | cons d rest ih =>
    intro deal h
    rw [updateDealByCode]
    by_cases hd : (d.trade_code == code) = true
    · rw [if_pos hd]
      rw [findDealByCode, List.find?_cons_of_pos (p := fun x : Deal => x.trade_code == code) _ hd] at h
      injection h with h
      subst h
      rw [findDealByCode]
      refine List.find?_cons_of_pos (p := fun x : Deal => x.trade_code == code) _ ?_
      show ((f d).trade_code == code) = true
      rw [hf]
      exact hd
    · rw [if_neg hd]
      rw [findDealByCode,
        List.find?_cons_of_neg (p := fun x : Deal => x.trade_code == code) _ (by simpa using hd)] at h
      rw [findDealByCode,
        List.find?_cons_of_neg (p := fun x : Deal => x.trade_code == code) _ (by simpa using hd)]
      exact ih deal h

/-! ### Sample store used by the concrete witnesses -/

def listing0 : Listing :=
  { id := 1, user_id := 1, listing_type := "sell", amount := 100, rate := 130,
    payment_method := "bank", contact := "@seller", status := "active" }

def deal0 : Deal :=
  { id := 1, listing_id := 1, buyer_id := 2, seller_id := 1, usdt_amount := 100,
    etb_amount := 13000, trade_code := "AB12C", escrow_wallet := "TXxxxxxx",
    status := "pending", commission_amount := 1.5 }

def db0 : DB := { listings := [listing0], deals := [deal0] }

def deal0paid : Deal := { deal0 with status := "paid" }

def db0paid : DB :=
  { db0 with
    deals := [deal0paid]
    logs := [{ deal_id := 1, action := "Payment confirmed",
               notes := "Seller confirmed ETB payment received" }] }

/-! ### Claim theorems -/

/-- C6: every code returned by the trade-code generator has length exactly 5
and every character is drawn from the 36-symbol alphabet of uppercase
letters A-Z and digits 0-9. -/
theorem generate_trade_code_length_alphabet (choice : Fin 5 → Fin 36) :
    (generate_trade_code choice).length = 5
    ∧ ∀ c ∈ (generate_trade_code choice).data, c ∈ tradeAlphabet := by
  constructor
  · simp [generate_trade_code, String.length]
  · intro c hc
    have hc' : c ∈ List.ofFn
        (fun i : Fin 5 => tradeAlphabet.get ((choice i).cast tradeAlphabet_length.symm)) := hc
    rw [List.mem_ofFn] at hc'
    obtain ⟨i, hi⟩ := hc'
    exact hi ▸ List.get_mem _ _ _

/-- C7: `confirm_payment` and `release_funds` normalize the supplied trade
code by stripping exactly one leading "#" (when present) before the lookup;
a code with no leading "#" is looked up unchanged, so the two handlers give
identical results on `"#" ++ code` and on `code`. -/
theorem trade_code_normalization (code : String) (hc : code.data.head? ≠ some '#') :
    stripHash ("#" ++ code) = code
    ∧ stripHash code = code
    ∧ (∀ db, confirm_payment ("#" ++ code) db = confirm_payment code db)
    ∧ (∀ cfg secret db,
        release_funds cfg { trade_code := "#" ++ code, secret := secret } db
          = release_funds cfg { trade_code := code, secret := secret } db) := by
  have h1 : stripHash ("#" ++ code) = code := stripHash_hash_cons code
  have h2 : stripHash code = code := stripHash_no_hash code hc
  refine ⟨h1, h2, ?_, ?_⟩
  · intro db
    simp only [confirm_payment, h1, h2]
  · intro cfg secret db
    simp only [release_funds, h1, h2]

/-- Witness for C7 at the concrete trade code of Scenario B: "#AB12C" is
looked up as "AB12C". -/
theorem trade_code_normalization_witness :
    "AB12C".data.head? ≠ some '#'
    ∧ stripHash ("#" ++ "AB12C") = "AB12C"
    ∧ stripHash "#AB12C" = "AB12C"
    ∧ confirm_payment "#AB12C" db0 = confirm_payment "AB12C" db0 := by
  have h := trade_code_normalization "AB12C" (by decide)
  refine ⟨by decide, h.1, by decide, ?_⟩
  have e : ("#" ++ "AB12C" : String) = "#AB12C" := by decide
  exact e ▸ h.2.2.1 db0

/-- C1: for every Deal found by trade-code lookup, `confirm_payment` succeeds
exactly when the Deal's status is "pending", transitioning it to "paid"; on
any other status (paid, released, or otherwise) it fails with the
InvalidState error `notPendingError` — and, failing through `Except.error`,
produces no new store, so the Deal is left unchanged. Consequently a second
`confirm_payment` on the store produced by a successful first call fails
with `notPendingError`: the operation is deliberately not idempotent. -/
theorem confirm_payment_pending_only (db : DB) (code : String) (deal : Deal)
    (hfind : findDealByCode db.deals (stripHash code) = some deal) :
    ((∃ db', confirm_payment code db = .ok (deal.trade_code, db')
        ∧ findDealByCode db'.deals (stripHash code) = some { deal with status := "paid" })
      ↔ deal.status = "pending")
    ∧ (deal.status ≠ "pending" → confirm_payment code db = .error notPendingError)
    ∧ (∀ tc db', confirm_payment code db = .ok (tc, db') →
        confirm_payment code db' = .error notPendingError) := by
  have herr : deal.status ≠ "pending" → confirm_payment code db = .error notPendingError := by
    intro hst
    simp only [confirm_payment, hfind]
    rw [if_pos hst]
  have hok : deal.status = "pending" →
      confirm_payment code db = .ok (deal.trade_code,
        { db with
          deals := updateDealByCode db.deals (stripHash code) (fun d => { d with status := "paid" })
          logs := db.logs ++ [{ deal_id := deal.id, action := "Payment confirmed",
                                notes := "Seller confirmed ETB payment received" }] }) := by
    intro hst
    simp only [confirm_payment, hfind]
    rw [if_neg (not_not_intro hst)]
  have hfind' : findDealByCode
      (updateDealByCode db.deals (stripHash code) (fun d => { d with status := "paid" }))
      (stripHash code) = some { deal with status := "paid" } :=
    findDealByCode_updateDealByCode db.deals (stripHash code)
      (fun d => { d with status := "paid" }) (fun d => rfl) deal hfind
  refine ⟨⟨?_, ?_⟩, herr, ?_⟩
  · rintro ⟨db', hdb', -⟩
    by_contra hst
    rw [herr hst] at hdb'
    exact absurd hdb' (by simp)
  · intro hst
    exact ⟨_, hok hst, hfind'⟩
  · intro tc db' h
    have hst : deal.status = "pending" := by
      by_contra hst
      rw [herr hst] at h
      exact absurd h (by simp)
    rw [hok hst] at h
    injection h with h
    injection h with h1 h2
    subst h2
    simp only [confirm_payment, hfind']
    rw [if_pos (by simp)]

/-- Witness for C1: in the sample store, confirming payment on pending Deal
"AB12C" succeeds once and fails with the InvalidState error the second
time. -/
theorem confirm_payment_pending_only_witness :
    findDealByCode db0.deals (stripHash "AB12C") = some deal0
    ∧ deal0.status = "pending"
    ∧ confirm_payment "AB12C" db0 = .ok ("AB12C", db0paid)
    ∧ confirm_payment "AB12C" db0paid = .error notPendingError := by
  have h := confirm_payment_pending_only db0 "AB12C" deal0 rfl
  have hok : confirm_payment "AB12C" db0 = .ok ("AB12C", db0paid) := rfl
  exact ⟨rfl, rfl, hok, h.2.2 "AB12C" db0paid hok⟩

/-- C2: with the correct admin secret, `release_funds` succeeds exactly when
the Deal exists (else NotFound) and its status is "paid" (else InvalidState);
on success the status becomes "released" and the receipt carries the trade
code, `amount_released = usdt_amount - commission_amount`, and the
commission retained. -/
theorem release_funds_spec (cfg : Config) (db : DB) (release : AdminRelease)
    (hsec : release.secret = cfg.release_secret) :
    (findDealByCode db.deals (stripHash release.trade_code) = none →
      release_funds cfg release db = .error dealNotFound)
    ∧ (∀ deal, findDealByCode db.deals (stripHash release.trade_code) = some deal →
        (deal.status ≠ "paid" → release_funds cfg release db = .error notPaidError)
        ∧ (deal.status = "paid" → ∃ db',
            release_funds cfg release db =
              .ok ({ trade_code := deal.trade_code
                     amount_released := deal.usdt_amount - deal.commission_amount
                     commission := deal.commission_amount }, db')
            ∧ findDealByCode db'.deals (stripHash release.trade_code)
                = some { deal with status := "released" })) := by
  have hs : ¬ release.secret ≠ cfg.release_secret := not_not_intro hsec
  constructor
  · intro hnone
    simp only [release_funds, hnone]
    rw [if_neg hs]
  · intro deal hfind
    constructor
    · intro hst
      simp only [release_funds, hfind]
      rw [if_neg hs, if_pos hst]
    · intro hst
      refine ⟨{ db with
          deals := updateDealByCode db.deals (stripHash release.trade_code)
            (fun d => { d with status := "released" })
          logs := db.logs ++ [{ deal_id := deal.id, action := "Funds released",
                                notes := "Admin released "
                                  ++ toString (deal.usdt_amount - deal.commission_amount)
                                  ++ " USDT to buyer" }] }, ?_, ?_⟩
      · simp only [release_funds, hfind]
        rw [if_neg hs, if_neg (not_not_intro hst)]
      · exact findDealByCode_updateDealByCode db.deals (stripHash release.trade_code)
          (fun d => { d with status := "released" }) (fun d => rfl) deal hfind

def secret0 : String := "p2p_secure_release_key_2024"

def defaultConfig : Config := {}

def deal0released : Deal := { deal0paid with status := "released" }

def releasedLogRow : LogRow :=
  { deal_id := 1, action := "Funds released",
    notes := "Admin released "
      ++ toString (deal0paid.usdt_amount - deal0paid.commission_amount) ++ " USDT to buyer" }

def db0released : DB :=
  { db0paid with
    deals := [deal0released]
    logs := db0paid.logs ++ [releasedLogRow] }

/-- Witness for C2 at Scenario D: releasing paid Deal "AB12C" with the
correct secret yields `amount_released = 100 - 1.5 = 98.5`, and releasing a
pending Deal fails with the InvalidState error. -/
theorem release_funds_spec_witness :
    secret0 = defaultConfig.release_secret
    ∧ findDealByCode db0paid.deals (stripHash "AB12C") = some deal0paid
    ∧ deal0paid.status = "paid"
    ∧ release_funds defaultConfig { trade_code := "AB12C", secret := secret0 } db0paid
        = .ok ({ trade_code := "AB12C", amount_released := 98.5, commission := 1.5 },
               db0released)
    ∧ release_funds defaultConfig { trade_code := "AB12C", secret := secret0 } db0
        = .error notPaidError := by
  have h := release_funds_spec defaultConfig db0paid
    { trade_code := "AB12C", secret := secret0 } rfl
  have h2 := release_funds_spec defaultConfig db0
    { trade_code := "AB12C", secret := secret0 } rfl
  refine ⟨rfl, rfl, rfl, ?_, (h2.2 deal0 rfl).1 (by decide)⟩
  have hok : release_funds defaultConfig { trade_code := "AB12C", secret := secret0 } db0paid
      = .ok ({ trade_code := deal0paid.trade_code
               amount_released := deal0paid.usdt_amount - deal0paid.commission_amount
               commission := deal0paid.commission_amount }, db0released) := rfl
  rw [hok]
  simp only [Except.ok.injEq, Prod.mk.injEq, ReleaseReceipt.mk.injEq, deal0paid, deal0]
  norm_num

/-- C3: for every trade-code input and every admin secret different from the
process-wide release secret, `release_funds` fails with the Forbidden error
before even looking the code up; failing through `Except.error`, it produces
no new store, so no Deal's status is changed by the failed call. -/
theorem release_funds_wrong_secret (cfg : Config) (db : DB) (release : AdminRelease)
    (hsec : release.secret ≠ cfg.release_secret) :
    release_funds cfg release db = .error invalidSecretError
    ∧ ∀ r db', release_funds cfg release db ≠ .ok (r, db') := by
  have h : release_funds cfg release db = .error invalidSecretError := by
    simp only [release_funds]
    rw [if_pos hsec]
  refine ⟨h, fun r db' hok => ?_⟩
  rw [h] at hok
  exact absurd hok (by simp)

/-- Witness for C3 at Scenario C: a wrong secret is rejected with Forbidden
even though paid Deal "AB12C" exists. -/
theorem release_funds_wrong_secret_witness :
    ("wrong-secret" : String) ≠ defaultConfig.release_secret
    ∧ release_funds defaultConfig { trade_code := "AB12C", secret := "wrong-secret" } db0paid
        = .error invalidSecretError
    ∧ findDealByCode db0paid.deals "AB12C" = some deal0paid
    ∧ deal0paid.status = "paid" := by
  have hs : ("wrong-secret" : String) ≠ defaultConfig.release_secret := by decide
  exact ⟨hs, (release_funds_wrong_secret defaultConfig db0paid
    { trade_code := "AB12C", secret := "wrong-secret" } hs).1, rfl, rfl⟩

theorem allocate_trade_code_spec (deals : List Deal) (draws : List (Fin 5 → Fin 36))
    (code : String) (h : allocate_trade_code deals draws = some code) :
    codeUsed deals code = false ∧ ∃ r ∈ draws, code = generate_trade_code r := by
  induction draws with
  | nil => simp [allocate_trade_code] at h
  | cons r rest ih =>
    simp only [allocate_trade_code] at h
    by_cases hu : codeUsed deals (generate_trade_code r) = true
    · rw [if_pos hu] at h
      obtain ⟨h1, r', hr', he⟩ := ih h
      exact ⟨h1, r', List.mem_cons_of_mem _ hr', he⟩
    · rw [if_neg hu] at h
      injection h with h
      subst h
      exact ⟨by simpa using hu, r, List.mem_cons_self _ _, rfl⟩

theorem uniqueCodes_append (deals : List Deal) (d : Deal)
    (hinv : uniqueCodes deals) (hnew : codeUsed deals d.trade_code = false) :
    uniqueCodes (deals ++ [d]) := by
  rw [uniqueCodes, List.pairwise_append]
  refine ⟨hinv, List.pairwise_singleton _ _, ?_⟩
  intro a ha b hb
  simp only [List.mem_singleton] at hb
  intro he
  have hnone : findDealByCode deals d.trade_code = none := by
    rw [codeUsed] at hnew
    exact Option.not_isSome_iff_eq_none.mp (by simp [hnew])
  rw [findDealByCode] at hnone
  have hna := List.find?_eq_none.mp hnone a ha
  exact hna (by simp [he, hb])

theorem map_trade_code_updateDealByCode (deals : List Deal) (code : String) (f : Deal → Deal)
    (hf : ∀ x, (f x).trade_code = x.trade_code) :
    (updateDealByCode deals code f).map (fun x => x.trade_code)
      = deals.map (fun x => x.trade_code) := by
  induction deals with
  | nil => rfl
  | cons d rest ih =>
    rw [updateDealByCode]
    by_cases hd : (d.trade_code == code) = true
    · rw [if_pos hd]
      simp [hf]
    · rw [if_neg hd]
      simp [ih]

theorem uniqueCodes_updateDealByCode (deals : List Deal) (code : String) (f : Deal → Deal)
    (hf : ∀ x, (f x).trade_code = x.trade_code) (h : uniqueCodes deals) :
    uniqueCodes (updateDealByCode deals code f) := by
  have hiff : ∀ l : List Deal, uniqueCodes l ↔
      (l.map (fun x => x.trade_code)).Pairwise (fun a b => a ≠ b) := by
    intro l
    rw [uniqueCodes, List.pairwise_map]
  rw [hiff, map_trade_code_updateDealByCode deals code f hf, ← hiff]
  exact h

/-- C4: `create_deal` allocates the trade code by rejection sampling — the
allocated code is one of the generator's draws and is held by no existing
Deal — the new Deal is appended to the store (Deals are never deleted), and
trade-code uniqueness of the whole Deal history is preserved; the only other
mutation of the deals table anywhere in the source, the in-place status
update performed by `confirm_payment` and `release_funds`, also preserves
it. -/
theorem create_deal_unique_trade_code (cfg : Config) (draws : List (Fin 5 → Fin 36))
    (req : DealCreate) (db : DB) (d : Deal) (db' : DB)
    (hinv : uniqueCodes db.deals)
    (h : create_deal cfg draws req db = some (.ok (d, db'))) :
    codeUsed db.deals d.trade_code = false
    ∧ (∃ r ∈ draws, d.trade_code = generate_trade_code r)
    ∧ db'.deals = db.deals ++ [d]
    ∧ uniqueCodes db'.deals
    ∧ ∀ code' st', uniqueCodes
        (updateDealByCode db'.deals code' (fun x => { x with status := st' })) := by
  rcases hL : findListing db.listings req.listing_id with _ | listing
  · simp [create_deal, hL] at h
  rcases hA : allocate_trade_code db.deals draws with _ | code
  · simp [create_deal, hL, hA] at h
  simp only [create_deal, hL, hA] at h
  injection h with h
  injection h with h
  injection h with h1 h2
  subst h1
  subst h2
  obtain ⟨hu, hr⟩ := allocate_trade_code_spec db.deals draws code hA
  refine ⟨hu, hr, rfl, uniqueCodes_append db.deals _ hinv hu, fun code' st' =>
    uniqueCodes_updateDealByCode _ code' _ (fun x => rfl)
      (uniqueCodes_append db.deals _ hinv hu)⟩

def r0 : Fin 5 → Fin 36 := fun _ => 0

def draws0 : List (Fin 5 → Fin 36) := [r0]

def req0 : DealCreate := { usdt_amount := 100, listing_id := 1, buyer_id := 2 }

def d1 : Deal :=
  { id := 2, listing_id := 1, buyer_id := 2, seller_id := 1, usdt_amount := 100,
    etb_amount := (100 : ℚ) * 130, trade_code := "AAAAA", escrow_wallet := "TXxxxxxx",
    status := "pending", commission_amount := (100 : ℚ) * (1.5 / 100) }

def createdLogRow : LogRow :=
  { deal_id := 2, action := "Deal created",
    notes := "Trade code: " ++ "AAAAA" ++ ", Amount: " ++ toString (100 : ℚ) ++ " USDT" }

def db1 : DB := { db0 with deals := [deal0, d1], logs := [createdLogRow] }

/-- Witness for C4: a concrete run in which the first draw "AAAAA" collides
with no existing code and is allocated; uniqueness of the history is
preserved. -/
theorem create_deal_unique_trade_code_witness :
    uniqueCodes db0.deals
    ∧ create_deal defaultConfig draws0 req0 db0 = some (.ok (d1, db1))
    ∧ codeUsed db0.deals d1.trade_code = false
    ∧ db1.deals = db0.deals ++ [d1]
    ∧ uniqueCodes db1.deals
    ∧ uniqueCodes (updateDealByCode db1.deals "AB12C" (fun x => { x with status := "paid" })) := by
  have hinv : uniqueCodes db0.deals := by simp [uniqueCodes, db0]
  have hcd : create_deal defaultConfig draws0 req0 db0 = some (.ok (d1, db1)) := rfl
  have h := create_deal_unique_trade_code defaultConfig draws0 req0 db0 d1 db1 hinv hcd
  exact ⟨hinv, hcd, h.1, h.2.2.1, h.2.2.2.1, h.2.2.2.2 "AB12C" "paid"⟩

/-- C5: every Deal created by `create_deal` has
`etb_amount = usdt_amount * listing.rate` and
`commission_amount = usdt_amount * (commission_percent / 100)`, both fixed in
the Deal row at creation; a later change of the Listing's rate does not
touch the deals table. -/
theorem create_deal_amounts (cfg : Config) (draws : List (Fin 5 → Fin 36))
    (req : DealCreate) (db : DB) (listing : Listing) (d : Deal) (db' : DB)
    (hL : findListing db.listings req.listing_id = some listing)
    (h : create_deal cfg draws req db = some (.ok (d, db'))) :
    d.etb_amount = req.usdt_amount * listing.rate
    ∧ d.commission_amount = req.usdt_amount * (cfg.commission_percent / 100)
    ∧ d.status = "pending"
    ∧ d.usdt_amount = req.usdt_amount
    ∧ ∀ lid rate, (update_listing_rate db' lid rate).deals = db'.deals := by
  rcases hA : allocate_trade_code db.deals draws with _ | code
  · simp [create_deal, hL, hA] at h
  simp only [create_deal, hL, hA] at h
  injection h with h
  injection h with h
  injection h with h1 h2
  subst h1
  subst h2
  exact ⟨rfl, rfl, rfl, rfl, fun lid rate => rfl⟩

/-- Witness for C5 at Scenario A: rate 130, usdt_amount 100 and the default
1.5 percent commission give `etb_amount = 13000` and
`commission_amount = 1.5`, unchanged by a later rate change to 200. -/
theorem create_deal_amounts_witness :
    findListing db0.listings req0.listing_id = some listing0
    ∧ create_deal defaultConfig draws0 req0 db0 = some (.ok (d1, db1))
    ∧ d1.etb_amount = 13000
    ∧ d1.commission_amount = 1.5
    ∧ d1.status = "pending"
    ∧ (update_listing_rate db1 1 200).deals = db1.deals := by
  have h := create_deal_amounts defaultConfig draws0 req0 db0 listing0 d1 db1 rfl rfl
  refine ⟨rfl, rfl, ?_, ?_, h.2.2.1, h.2.2.2.2 1 200⟩
  · rw [h.1]
    norm_num [req0, listing0]
  · rw [h.2.1]
    norm_num [req0, defaultConfig]

def reqNeg : DealCreate := { usdt_amount := -5, listing_id := 1, buyer_id := 2 }

def dNeg : Deal :=
  { id := 2, listing_id := 1, buyer_id := 2, seller_id := 1, usdt_amount := -5,
    etb_amount := (-5 : ℚ) * 130, trade_code := "AAAAA", escrow_wallet := "TXxxxxxx",
    status := "pending", commission_amount := (-5 : ℚ) * (1.5 / 100) }

def negLogRow : LogRow :=
  { deal_id := 2, action := "Deal created",
    notes := "Trade code: " ++ "AAAAA" ++ ", Amount: " ++ toString (-5 : ℚ) ++ " USDT" }

def dbNeg : DB := { db0 with deals := [deal0, dNeg], logs := [negLogRow] }

/-- Counterexample for C8: the handler body `create_deal` performs no check
of its own on `usdt_amount`. Called with `usdt_amount = -5` against an
existing Listing, it succeeds and persists a Deal with the negative amount,
instead of failing with a Validation error as the claim asserts of the
core. -/
theorem create_deal_accepts_nonpositive :
    reqNeg.usdt_amount ≤ 0
    ∧ create_deal defaultConfig draws0 reqNeg db0 = some (.ok (dNeg, dbNeg))
    ∧ dNeg.usdt_amount = -5 := by
  refine ⟨?_, rfl, rfl⟩
  norm_num [reqNeg]

/-- C8 (amended): `create_deal` fails with NotFound when the listing is
absent; positivity of `usdt_amount` is enforced only by the upstream
pydantic schema (`gt=0`), which rejects a non-positive amount with a 422
validation error before the handler runs, so no Deal is created — the
handler itself performs no amount check. -/
theorem create_deal_endpoint_validation (cfg : Config) (draws : List (Fin 5 → Fin 36))
    (req : DealCreate) (db : DB) :
    (¬ 0 < req.usdt_amount →
      create_deal_endpoint cfg draws req db = some (.error validationError))
    ∧ (0 < req.usdt_amount → findListing db.listings req.listing_id = none →
      create_deal_endpoint cfg draws req db = some (.error listingNotFound)) := by
  constructor
  · intro hneg
    rw [create_deal_endpoint, if_neg (by simpa [dealCreate_schema_ok] using hneg)]
  · intro hpos hnone
    rw [create_deal_endpoint, if_pos (by simpa [dealCreate_schema_ok] using hpos)]
    simp only [create_deal, hnone]

def dbEmpty : DB := {}

def reqNoListing : DealCreate := { usdt_amount := 100, listing_id := 7, buyer_id := 2 }

/-- Witness for C8 (amended): the endpoint rejects `usdt_amount = -5` with
the schema validation error, and rejects a missing listing with NotFound. -/
theorem create_deal_endpoint_validation_witness :
    ¬ 0 < reqNeg.usdt_amount
    ∧ create_deal_endpoint defaultConfig draws0 reqNeg db0 = some (.error validationError)
    ∧ 0 < reqNoListing.usdt_amount
    ∧ findListing dbEmpty.listings reqNoListing.listing_id = none
    ∧ create_deal_endpoint defaultConfig draws0 reqNoListing dbEmpty
        = some (.error listingNotFound) := by
  have h1 : ¬ 0 < reqNeg.usdt_amount := by norm_num [reqNeg]
  have h2 : 0 < reqNoListing.usdt_amount := by norm_num [reqNoListing]
  exact ⟨h1, (create_deal_endpoint_validation defaultConfig draws0 reqNeg db0).1 h1,
    h2, rfl, (create_deal_endpoint_validation defaultConfig draws0 reqNoListing dbEmpty).2 h2 rfl⟩

/-- C9: `create_deal` never validates `buyer_id`. Whenever the referenced
Listing exists and the allocation loop terminates, the call succeeds and
persists a Deal carrying the requested `buyer_id`; the user table plays no
role at all — replacing it by any list of Users (including the empty one, so
that no User with that id exists) changes nothing but the untouched `users`
column of the resulting store. -/
theorem create_deal_ignores_buyer (cfg : Config) (draws : List (Fin 5 → Fin 36))
    (req : DealCreate) (db : DB) (listing : Listing) (code : String)
    (hL : findListing db.listings req.listing_id = some listing)
    (hA : allocate_trade_code db.deals draws = some code) :
    ∃ d db', create_deal cfg draws req db = some (.ok (d, db'))
      ∧ d.buyer_id = req.buyer_id
      ∧ (∀ us : List User,
          create_deal cfg draws req { db with users := us }
            = some (.ok (d, { db' with users := us }))) := by
  refine ⟨{ id := db.deals.length + 1
            listing_id := req.listing_id
            buyer_id := req.buyer_id
            seller_id := listing.user_id
            usdt_amount := req.usdt_amount
            etb_amount := req.usdt_amount * listing.rate
            trade_code := code
            escrow_wallet := cfg.escrow_wallet
            status := "pending"
            commission_amount := req.usdt_amount * (cfg.commission_percent / 100) },
          { db with
            deals := db.deals ++ [{ id := db.deals.length + 1
                                    listing_id := req.listing_id
                                    buyer_id := req.buyer_id
                                    seller_id := listing.user_id
                                    usdt_amount := req.usdt_amount
                                    etb_amount := req.usdt_amount * listing.rate
                                    trade_code := code
                                    escrow_wallet := cfg.escrow_wallet
                                    status := "pending"
                                    commission_amount := req.usdt_amount * (cfg.commission_percent / 100) }]
            logs := db.logs ++ [{ deal_id := db.deals.length + 1
                                  action := "Deal created"
                                  notes := "Trade code: " ++ code ++ ", Amount: "
                                    ++ toString req.usdt_amount ++ " USDT" }] }, ?_, rfl, ?_⟩
  · simp only [create_deal, hL, hA]
  · intro us
    simp only [create_deal, hL, hA]

def req99 : DealCreate := { usdt_amount := 100, listing_id := 1, buyer_id := 99 }

def d99 : Deal := { d1 with buyer_id := 99 }

def db99 : DB := { db0 with deals := [deal0, d99], logs := [createdLogRow] }

/-- Witness for C9: with an empty user table (so no User with id 99 exists),
creating a deal with `buyer_id = 99` still succeeds and stores that id. -/
theorem create_deal_ignores_buyer_witness :
    db0.users = []
    ∧ allocate_trade_code db0.deals draws0 = some "AAAAA"
    ∧ create_deal defaultConfig draws0 req99 db0 = some (.ok (d99, db99))
    ∧ d99.buyer_id = 99 := by
  obtain ⟨d, db', h1, h2, h3⟩ := create_deal_ignores_buyer defaultConfig draws0 req99 db0
    listing0 "AAAAA" rfl rfl
  exact ⟨rfl, rfl, rfl, rfl⟩

/-- C10: `create_deal` never consults the Listing's status. If a run against
the store succeeds, the same run against the store with that Listing's
status replaced by any string (inactive, completed, or anything else)
succeeds and produces the identical Deal, field for field. -/
theorem create_deal_ignores_listing_status (cfg : Config) (draws : List (Fin 5 → Fin 36))
    (req : DealCreate) (db : DB) (d : Deal) (db' : DB) (st : String)
    (h : create_deal cfg draws req db = some (.ok (d, db'))) :
    ∃ db'', create_deal cfg draws req (update_listing_status db req.listing_id st)
        = some (.ok (d, db'')) := by
  rcases hL : findListing db.listings req.listing_id with _ | listing
  · simp [create_deal, hL] at h
  rcases hA : allocate_trade_code db.deals draws with _ | code
  · simp [create_deal, hL, hA] at h
  have hid : (listing.id == req.listing_id) = true := by
    have h' := List.find?_some (p := fun l : Listing => l.id == req.listing_id)
      (show List.find? (fun l : Listing => l.id == req.listing_id) db.listings
        = some listing from hL)
    simpa using h'
  have hpf : ((fun l : Listing => l.id == req.listing_id)
      ∘ (fun l : Listing => if l.id == req.listing_id then { l with status := st } else l))
      = fun l : Listing => l.id == req.listing_id := by
    funext x
    by_cases hx : (x.id == req.listing_id) = true
    · simp [Function.comp, hx]
    · simp [Function.comp, hx]
  have hL' : findListing (db.listings.map
        (fun l => if l.id == req.listing_id then { l with status := st } else l))
      req.listing_id = some { listing with status := st } := by
    rw [findListing, List.find?_map, hpf]
    rw [show List.find? (fun l : Listing => l.id == req.listing_id) db.listings
      = some listing from hL]
    rw [show Option.map
        (fun l : Listing => if l.id == req.listing_id then { l with status := st } else l)
        (some listing)
      = some (if listing.id == req.listing_id then { listing with status := st } else listing)
      from rfl]
    rw [if_pos hid]
  simp only [create_deal, hL, hA] at h
  injection h with h
  injection h with h
  injection h with h1 h2
  subst h1
  refine ⟨{ users := db.users
            listings := db.listings.map
              (fun l => if l.id == req.listing_id then { l with status := st } else l)
            deals := db.deals ++ [{ id := db.deals.length + 1
                                    listing_id := req.listing_id
                                    buyer_id := req.buyer_id
                                    seller_id := listing.user_id
                                    usdt_amount := req.usdt_amount
                                    etb_amount := req.usdt_amount * listing.rate
                                    trade_code := code
                                    escrow_wallet := cfg.escrow_wallet
                                    status := "pending"
                                    commission_amount := req.usdt_amount * (cfg.commission_percent / 100) }]
            logs := db.logs ++ [{ deal_id := db.deals.length + 1
                                  action := "Deal created"
                                  notes := "Trade code: " ++ code ++ ", Amount: "
                                    ++ toString req.usdt_amount ++ " USDT" }] }, ?_⟩
  simp only [create_deal, update_listing_status, hL', hA]

def db1inactive : DB :=
  { db0 with
    listings := [{ listing0 with status := "inactive" }]
    deals := [deal0, d1]
    logs := [createdLogRow] }

/-- Witness for C10: creating the same deal against the sample Listing with
status "inactive" instead of "active" yields the identical Deal `d1`. -/
theorem create_deal_ignores_listing_status_witness :
    create_deal defaultConfig draws0 req0 db0 = some (.ok (d1, db1))
    ∧ create_deal defaultConfig draws0 req0 (update_listing_status db0 1 "inactive")
        = some (.ok (d1, db1inactive)) := by
  obtain ⟨db'', h⟩ := create_deal_ignores_listing_status defaultConfig draws0 req0 db0
    d1 db1 "inactive" rfl
  exact ⟨rfl, rfl⟩
